import Mathlib

/-!
Verification of the diarization-and-transcript-alignment core of the
concord-consortium audio-transcriber scripts.  The relevant program logic
lives in transcribe_faster_whisper.py (feature windows, k-means speaker
labels, segment alignment, console and CSV emission) and in transcribe.py
(the cloud-API word stream printer).  Pure fragments are embedded as Lean
functions over rationals, naturals and strings; the floating point library
calls (spectrogram values, k-means iterations) are abstracted by their
observable shape: the number of spectrogram columns and the per-window
label list, together with the success condition of the clustering call.
-/

namespace AudioTranscriber

/-- Zero padded decimal rendering to width two, as produced by the Python
format spec {:02} on a nonnegative integer. -/
def pad2 (n : ℕ) : String := if n < 10 then "0" ++ toString n else toString n

/-- Zero padded decimal rendering to width three, used for the fractional
part of the Python format spec {:06.3f}. -/
def pad3 (n : ℕ) : String :=
  if n < 10 then "00" ++ toString n
  else if n < 100 then "0" ++ toString n
  else toString n

/-- Embeds the Python format {secs:06.3f} for nonnegative second counts:
the value is rounded to a whole number of milliseconds and rendered with
three decimals and at least two zero padded integer digits.  All times
appearing in the claims are exact multiples of a millisecond, where this
rounding agrees with the float rendering done by Python. -/
def fmtSeconds (q : ℚ) : String :=
  let ms : ℕ := (⌊q * 1000 + 1 / 2⌋).toNat
  pad2 (ms / 1000) ++ "." ++ pad3 (ms % 1000)

/-- Embeds format_duration, which is textually identical in
transcribe_faster_whisper.py and transcribe.py: divmod of the second count
by 3600, then divmod of the remainder by 60, rendered through the format
string {:02}:{:02}:{:06.3f}.  Both pipelines only ever pass nonnegative
times, where Int.toNat is the identity on the floor values. -/
def format_duration (seconds : ℚ) : String :=
  let hours : ℤ := ⌊seconds / 3600⌋
  let remainder : ℚ := seconds - 3600 * (hours : ℚ)
  let minutes : ℤ := ⌊remainder / 60⌋
  let secs : ℚ := remainder - 60 * (minutes : ℚ)
  pad2 hours.toNat ++ ":" ++ pad2 minutes.toNat ++ ":" ++ fmtSeconds secs

/-- The whitespace test of the Python str.strip method: space, tab,
newline, carriage return, vertical tab and form feed. -/
def is_space (c : Char) : Bool :=
  c == ' ' || c == '\t' || c == '\n' || c == '\r' || c == '\x0b' || c == '\x0c'

/-- Embeds the Python str.strip method on the character list of a string:
drop whitespace on the left, then drop whitespace on the right. -/
def stripChars (s : List Char) : List Char :=
  List.rdropWhile is_space (s.dropWhile is_space)

/-- Embeds the Python str.strip method. -/
def strip (s : String) : String := ⟨stripChars s.data⟩

/-! ## The faster-whisper pipeline (transcribe_faster_whisper.py) -/

namespace FW

/-- A speaker window (start_time, end_time, speaker_label) as built by
perform_diarization: times in seconds, label a decimal string. -/
abbrev SpeakerWindow := ℚ × ℚ × String

/-- The fixed window_size local of perform_diarization, 0.5 seconds. -/
def window_size : ℚ := 1 / 2

/-- Embeds the speaker lookup loop of transcribe_audio (the segment-speaker
aligner): starting from speaker = None, scan speaker_segments in order and
take the first window with seg_start <= start_time < seg_end; the guard
if speaker_segments is the empty-list base case. -/
def resolve_speaker (t : ℚ) : List SpeakerWindow → Option String
  | [] => none
  | (s, e, sp) :: rest =>
      if s ≤ t ∧ t < e then some sp else resolve_speaker t rest

/-- Number of time columns produced by the scipy.signal.spectrogram call in
extract_audio_features for a signal of len samples and nperseg window
samples.  With the library defaults the overlap is nperseg / 8 (integer
division), the step is nperseg - nperseg / 8, and for len at least nperseg
the column count is (len - overlap) / step, trailing samples dropped.  The
feature list built from the spectrogram has exactly one entry per column. -/
def spectrogram_cols (len nperseg : ℕ) : ℕ :=
  (len - nperseg / 8) / (nperseg - nperseg / 8)

/-- Embeds the window building loop of perform_diarization, carrying the
enumerate index: window i becomes (i * window_size, (i + 1) * window_size,
str(label + 1)). -/
def mk_speaker_segments_from (i : ℕ) : List ℕ → List SpeakerWindow
  | [] => []
  | label :: rest =>
      ((i : ℚ) * window_size, ((i : ℚ) + 1) * window_size, toString (label + 1))
        :: mk_speaker_segments_from (i + 1) rest

/-- The full window list for a label list, one label per feature window. -/
def mk_speaker_segments (labels : List ℕ) : List SpeakerWindow :=
  mk_speaker_segments_from 0 labels

/-- Outcome of the scipy kmeans and vq calls inside perform_diarization.
The float iterations are abstracted: on success vq yields one cluster
label per feature vector, which we take as given; kmeans raises a
ValueError when the requested cluster count k is below one or exceeds the
number numFeat of observations, which is the failure case relevant to the
claims. -/
def cluster_outcome (numFeat k : ℕ) (labels : List ℕ) : Except String (List ℕ) :=
  if 1 ≤ k ∧ k ≤ numFeat then Except.ok labels
  else Except.error "Cannot take a larger sample than population when replace is False"

/-- Embeds perform_diarization: the try block (feature extraction,
clustering, window building) is summarized by its Except-valued outcome;
the except clause catches every exception, writes one warning line to
stderr and returns the empty window list.  The result pairs the returned
window list with the list of stderr warning lines. -/
def perform_diarization (tryOutcome : Except String (List ℕ)) :
    List SpeakerWindow × List String :=
  match tryOutcome with
  | Except.ok labels => (mk_speaker_segments labels, [])
  | Except.error e =>
      ([], ["Warning: Speaker diarization failed: " ++ e ++ "\n"])

/-- A transcription segment as consumed by transcribe_audio: only the
start time and the word texts are read by the loop; the end time is
carried to show it is never used. -/
structure Segment where
  start : ℚ
  stop : ℚ
  words : List String

/-- Embeds the word joining loop of transcribe_audio: current_text starts
empty and each word is appended, preceded by one space when current_text
is nonempty. -/
def join_words (ws : List String) : String :=
  ws.foldl (fun cur w => (if cur ≠ "" then cur ++ " " else cur) ++ w) ""

/-- Embeds the speaker_text expression of print_transcript_line: the label
with the leading text "Speaker ", or "Unknown" when speaker is None. -/
def speaker_text : Option String → String
  | some s => "Speaker " ++ s
  | none => "Unknown"

/-- Embeds print_transcript_line of transcribe_faster_whisper.py.  The
returned pair collects the console lines and the CSV rows written by one
call; hasCsv models whether a csv_writer was passed. -/
def print_transcript_line (time : ℚ) (text : String) (speaker : Option String)
    (hasCsv : Bool) : List String × List (List String) :=
  if text ≠ "" then
    ([format_duration time ++ ";" ++ speaker_text speaker ++ ";" ++ text],
     if hasCsv then [[format_duration time, speaker_text speaker, text]] else [])
  else ([], [])

/-- Embeds one iteration of the segment loop of transcribe_audio: resolve
the speaker from the segment start time, join the word texts, and when the
stripped text is nonempty print it (stripped) with the csv writer. -/
def process_segment (ws : List SpeakerWindow) (seg : Segment) :
    List String × List (List String) :=
  let speaker := resolve_speaker seg.start ws
  let current := join_words seg.words
  if strip current ≠ "" then print_transcript_line seg.start (strip current) speaker true
  else ([], [])

/-- Embeds the output producing part of transcribe_audio: the console
header line, the CSV header row, then the per segment output in order.
The first component is the console stream, the second the CSV row list. -/
def transcribe_audio (ws : List SpeakerWindow) (segs : List Segment) :
    List String × List (List String) :=
  let outs := segs.map (process_segment ws)
  ("Time;Speaker;Text" :: (outs.map Prod.fst).flatten,
   ["Time", "Speaker", "Text"] :: (outs.map Prod.snd).flatten)

end FW

/-! ## The cloud API pipeline (transcribe.py) -/

namespace GC

/-- A word token of the cloud speech API response, as read by
print_transcript: the word text, the speaker label, and the whole-second
part of the start time (the seconds field of the protobuf duration, an
integer). -/
structure Word where
  word : String
  speaker_label : String
  start_seconds : ℕ

/-- The loop state of print_transcript: current_time (None before the
first word), current_speaker (None before the first word) and the
current_text accumulator. -/
structure LineState where
  time : Option ℕ
  speaker : Option String
  text : String

/-- Embeds print_transcript_line of transcribe.py: a line is printed only
when text is nonempty (no stripping in the guard).  In print_transcript
every call with nonempty text has both time and speaker set, so the
defaults used for the None case here are never rendered. -/
def print_transcript_line (time : Option ℕ) (speaker : Option String)
    (text : String) : List String :=
  if text ≠ "" then
    [format_duration ((time.getD 0 : ℕ) : ℚ) ++ ";" ++ speaker.getD "None" ++ ";" ++ text]
  else []

/-- Embeds one iteration of the word loop of print_transcript: on a
speaker change flush the accumulated line, reset the accumulator to this
word with empty text, then append word + one trailing space to the
accumulator. -/
def step (acc : LineState × List String) (w : Word) : LineState × List String :=
  let st := acc.1
  let out := acc.2
  if some w.speaker_label ≠ st.speaker then
    (⟨some w.start_seconds, some w.speaker_label, "" ++ w.word ++ " "⟩,
     out ++ print_transcript_line st.time st.speaker st.text)
  else
    (⟨st.time, st.speaker, st.text ++ w.word ++ " "⟩, out)

/-- Embeds print_transcript of transcribe.py: header line, the word loop,
then the final unconditional flush of the accumulator. -/
def print_transcript (words : List Word) : List String :=
  let res := words.foldl step (⟨none, none, ""⟩, [])
  "Time;Speaker;Text" :: (res.2 ++ print_transcript_line res.1.time res.1.speaker res.1.text)

end GC

/-! ## Helper lemmas -/

/-- One call of process_segment either emits nothing (blank stripped text)
or emits exactly one console line and one CSV row built from the segment
start time, the rendered speaker and the stripped joined text. -/
theorem process_segment_eq (ws : List FW.SpeakerWindow) (seg : FW.Segment) :
    FW.process_segment ws seg = ([], []) ∨
    (strip (FW.join_words seg.words) ≠ "" ∧
      FW.process_segment ws seg =
        ([format_duration seg.start ++ ";" ++
            FW.speaker_text (FW.resolve_speaker seg.start ws) ++ ";" ++
            strip (FW.join_words seg.words)],
         [[format_duration seg.start,
            FW.speaker_text (FW.resolve_speaker seg.start ws),
            strip (FW.join_words seg.words)]])) := by
  by_cases h : strip (FW.join_words seg.words) = ""
  · left
    simp [FW.process_segment, h]
  · right
    exact ⟨h, by simp [FW.process_segment, FW.print_transcript_line, h]⟩

/-- The console stream of transcribe_audio is the header followed by the
per segment console lines in order. -/
theorem transcribe_audio_console (ws : List FW.SpeakerWindow) (segs : List FW.Segment) :
    (FW.transcribe_audio ws segs).1 =
      "Time;Speaker;Text" ::
        ((segs.map (FW.process_segment ws)).map Prod.fst).flatten := rfl

/-- Membership in the console body of transcribe_audio comes from the
output of one segment of the input list. -/
theorem mem_console_body (ws : List FW.SpeakerWindow) (segs : List FW.Segment)
    (line : String)
    (h : line ∈ ((segs.map (FW.process_segment ws)).map Prod.fst).flatten) :
    ∃ seg ∈ segs, line ∈ (FW.process_segment ws seg).1 := by
  rcases List.mem_flatten.1 h with ⟨l, hl, hline⟩
  rcases List.mem_map.1 hl with ⟨pr, hpr, rfl⟩
  rcases List.mem_map.1 hpr with ⟨seg, hseg, rfl⟩
  exact ⟨seg, hseg, hline⟩

/-- A speaker returned by the alignment loop is the label of one of the
windows in the list. -/
theorem resolve_speaker_mem (t : ℚ) (ws : List FW.SpeakerWindow) (sp : String)
    (h : FW.resolve_speaker t ws = some sp) : sp ∈ ws.map (fun w => w.2.2) := by
  induction ws with
  | nil => simp [FW.resolve_speaker] at h
  | cons w rest ih =>
    obtain ⟨s, e, l⟩ := w
    by_cases hc : s ≤ t ∧ t < e
    · simp [FW.resolve_speaker, hc] at h
      simp [h]
    · simp [FW.resolve_speaker, hc] at h
      simpa using Or.inr (ih h)

section ConcreteEvaluation

attribute [local semireducible] Rat.mul Rat.add Rat.sub Rat.inv

/-! ## Claim C1: merging of consecutive same speaker segments -/

/-- Claim C1, counterexample.  Two transcript segments (0,1,"hi") and
(1,2,"there"), both resolving to speaker "1" under windows all labeled
"1", do NOT produce the single line 00:00:00.000;1;hi there.  The
faster-whisper pipeline emits two body lines (console length 3 with the
header), and neither pipeline ever emits the claimed string: the cloud
pipeline merges but renders the speaker and a trailing space
differently. -/
theorem merge_claim_counterexample :
    ((FW.transcribe_audio [(0, 1/2, "1"), (1/2, 1, "1"), (1, 3/2, "1")]
        [⟨0, 1, ["hi"]⟩, ⟨1, 2, ["there"]⟩]).1).length = 3 ∧
    "00:00:00.000;1;hi there" ∉
      (FW.transcribe_audio [(0, 1/2, "1"), (1/2, 1, "1"), (1, 3/2, "1")]
        [⟨0, 1, ["hi"]⟩, ⟨1, 2, ["there"]⟩]).1 ∧
    "00:00:00.000;1;hi there" ∉
      GC.print_transcript [⟨"hi", "1", 0⟩, ⟨"there", "1", 1⟩] := by
  refine ⟨?_, ?_, ?_⟩ <;> decide

/-- Claim C1, amended.  The faster-whisper aggregation loop emits one line
per transcript segment and never merges consecutive same speaker segments:
the two segments produce the two lines 00:00:00.000;Speaker 1;hi and
00:00:01.000;Speaker 1;there.  The cloud pipeline printer does merge
consecutive words of one speaker into a single line whose time is the
integer second start of the first word and whose text is each word
followed by one space, giving 00:00:00.000;1;hi there with a trailing
space. -/
theorem merge_behavior_amended :
    (FW.transcribe_audio [(0, 1/2, "1"), (1/2, 1, "1"), (1, 3/2, "1")]
        [⟨0, 1, ["hi"]⟩, ⟨1, 2, ["there"]⟩]).1 =
      ["Time;Speaker;Text", "00:00:00.000;Speaker 1;hi", "00:00:01.000;Speaker 1;there"] ∧
    GC.print_transcript [⟨"hi", "1", 0⟩, ⟨"there", "1", 1⟩] =
      ["Time;Speaker;Text", "00:00:00.000;1;hi there "] := by
  constructor <;> decide

/-! ## Claim C3: speaker resolution from the segment start time -/

/-- Claim C3.  The resolved speaker of a segment start time is the label
of the first window (s, e, label) in list order with s <= t < e; on the
empty window list or when no window contains t the result is the None
sentinel (rendered Unknown); and the segment end time is never consulted
by the per segment processing. -/
theorem resolve_speaker_spec :
    (∀ t : ℚ, FW.resolve_speaker t [] = none) ∧
    (∀ (t : ℚ) (ws : List FW.SpeakerWindow),
      (∀ w ∈ ws, ¬(w.1 ≤ t ∧ t < w.2.1)) → FW.resolve_speaker t ws = none) ∧
    (∀ (t : ℚ) (pre : List FW.SpeakerWindow) (w : FW.SpeakerWindow)
        (suf : List FW.SpeakerWindow),
      (∀ v ∈ pre, ¬(v.1 ≤ t ∧ t < v.2.1)) → w.1 ≤ t → t < w.2.1 →
      FW.resolve_speaker t (pre ++ w :: suf) = some w.2.2) ∧
    (∀ (ws : List FW.SpeakerWindow) (t e₁ e₂ : ℚ) (tokens : List String),
      FW.process_segment ws ⟨t, e₁, tokens⟩ = FW.process_segment ws ⟨t, e₂, tokens⟩) := by
  refine ⟨fun t => rfl, ?_, ?_, fun ws t e₁ e₂ tokens => rfl⟩
  · intro t ws h
    induction ws with
    | nil => rfl
    | cons w rest ih =>
      obtain ⟨s, e, l⟩ := w
      have hw := h (s, e, l) (by simp)
      simp only [FW.resolve_speaker, if_neg hw]
      exact ih fun v hv => h v (by simp [hv])
  · intro t pre w suf hpre hs he
    induction pre with
    | nil =>
      obtain ⟨s, e, l⟩ := w
      simp only [List.nil_append, FW.resolve_speaker]
      exact if_pos ⟨hs, he⟩
    | cons v rest ih =>
      obtain ⟨s, e, l⟩ := v
      have hv := hpre (s, e, l) (by simp)
      simp only [List.cons_append, FW.resolve_speaker, if_neg hv]
      exact ih fun u hu => hpre u (by simp [hu])

/-- Claim C3, witness: the second window of a two window list contains
time 1 and the first does not, so its label is returned. -/
theorem resolve_speaker_spec_witness :
    FW.resolve_speaker 1 ([((0 : ℚ), (1 : ℚ)/2, "2")] ++ ((1 : ℚ)/2, (3 : ℚ)/2, "7") :: []) =
      some "7" :=
  resolve_speaker_spec.2.2.1 1 [(0, 1/2, "2")] ((1 : ℚ)/2, (3 : ℚ)/2, "7") []
    (by decide) (by decide) (by decide)

/-! ## Claim C4: diarization failure is never fatal -/

/-- Claim C4.  perform_diarization returns normally on every outcome of
its try block: an exception is turned into the empty window list plus one
warning line on the diagnostic stream, a success yields the window list
and no warning, and after a failure transcription output is still
produced (header plus body). -/
theorem diarization_never_fatal :
    (∀ e : String, FW.perform_diarization (Except.error e) =
        ([], ["Warning: Speaker diarization failed: " ++ e ++ "\n"])) ∧
    (∀ labels : List ℕ, FW.perform_diarization (Except.ok labels) =
        (FW.mk_speaker_segments labels, [])) ∧
    (∀ (e : String) (segs : List FW.Segment), ∃ body,
        (FW.transcribe_audio (FW.perform_diarization (Except.error e)).1 segs).1 =
          "Time;Speaker;Text" :: body) :=
  ⟨fun _ => rfl, fun _ => rfl, fun _ _ => ⟨_, rfl⟩⟩

/-! ## Claim C10: console and CSV sinks agree -/

/-- The console line of one print_transcript_line call is the semicolon
join of the CSV row fields of the same call. -/
theorem process_segment_console_eq_csv (ws : List FW.SpeakerWindow) (seg : FW.Segment) :
    (FW.process_segment ws seg).1 =
      ((FW.process_segment ws seg).2).map (String.intercalate ";") := by
  rcases process_segment_eq ws seg with h | ⟨-, h⟩
  · simp [h]
  · rw [h]
    rfl

/-- Claim C10.  In the faster-whisper pipeline the console stream is
exactly the semicolon join of the CSV row stream, header included: the
two sinks receive the same time, speaker and text fields for every
emitted line and a line is emitted to both sinks or to neither. -/
theorem console_csv_agree (ws : List FW.SpeakerWindow) (segs : List FW.Segment) :
    (FW.transcribe_audio ws segs).1 =
      ((FW.transcribe_audio ws segs).2).map (String.intercalate ";") := by
  simp only [FW.transcribe_audio, List.map_cons]
  refine congrArg₂ List.cons rfl ?_
  rw [List.map_flatten, List.map_map, List.map_map, List.map_map]
  exact congrArg List.flatten
    (List.map_congr_left fun seg _ => process_segment_console_eq_csv ws seg)

end ConcreteEvaluation

/-! ## Timestamp format lemmas -/

/-- Gluing lemma for the string literal split of the seconds field. -/
theorem append_dot000 (a b : String) :
    a ++ (b ++ "." ++ "000") = (a ++ b) ++ ".000" := by
  rw [show (".000" : String) = "." ++ "000" from rfl]
  simp [String.append_assoc]

/-- For a nonnegative time the format_duration output has the shape
HH:MM:SS.mmm: two zero padded digit groups for hours and minutes, minutes
below 60, and a seconds group of two digits, a dot and three digits built
from a millisecond count of at most 60000. -/
theorem format_duration_parts (t : ℚ) (_ht : 0 ≤ t) :
    ∃ hh mm ms : ℕ, mm < 60 ∧ ms ≤ 60000 ∧
      format_duration t =
        pad2 hh ++ ":" ++ pad2 mm ++ ":" ++ (pad2 (ms / 1000) ++ "." ++ pad3 (ms % 1000)) := by
  have h3600 : (0 : ℚ) < 3600 := by norm_num
  have h60 : (0 : ℚ) < 60 := by norm_num
  refine ⟨(⌊t / 3600⌋).toNat, (⌊(t - 3600 * ((⌊t / 3600⌋ : ℤ) : ℚ)) / 60⌋).toNat,
      (⌊((t - 3600 * ((⌊t / 3600⌋ : ℤ) : ℚ)) -
          60 * ((⌊(t - 3600 * ((⌊t / 3600⌋ : ℤ) : ℚ)) / 60⌋ : ℤ) : ℚ)) * 1000 + 1 / 2⌋).toNat,
      ?_, ?_, rfl⟩
  · have hle : ((⌊t / 3600⌋ : ℤ) : ℚ) ≤ t / 3600 := Int.floor_le _
    have hlt : t / 3600 < (⌊t / 3600⌋ : ℤ) + 1 := Int.lt_floor_add_one _
    have hr0 : 0 ≤ t - 3600 * ((⌊t / 3600⌋ : ℤ) : ℚ) := by
      have := (le_div_iff₀ h3600).1 hle
      linarith
    have hrlt : t - 3600 * ((⌊t / 3600⌋ : ℤ) : ℚ) < 3600 := by
      have := (div_lt_iff₀ h3600).1 hlt
      linarith
    have hm0 : 0 ≤ ⌊(t - 3600 * ((⌊t / 3600⌋ : ℤ) : ℚ)) / 60⌋ :=
      Int.floor_nonneg.2 (div_nonneg hr0 (le_of_lt h60))
    have hmlt : ⌊(t - 3600 * ((⌊t / 3600⌋ : ℤ) : ℚ)) / 60⌋ < 60 := by
      rw [Int.floor_lt]
      push_cast
      rw [div_lt_iff₀ h60]
      linarith
    omega
  · have hle : ((⌊t / 3600⌋ : ℤ) : ℚ) ≤ t / 3600 := Int.floor_le _
    have hr0 : 0 ≤ t - 3600 * ((⌊t / 3600⌋ : ℤ) : ℚ) := by
      have := (le_div_iff₀ h3600).1 hle
      linarith
    have hsle : ((⌊(t - 3600 * ((⌊t / 3600⌋ : ℤ) : ℚ)) / 60⌋ : ℤ) : ℚ) ≤
        (t - 3600 * ((⌊t / 3600⌋ : ℤ) : ℚ)) / 60 := Int.floor_le _
    have hslt : (t - 3600 * ((⌊t / 3600⌋ : ℤ) : ℚ)) / 60 <
        (⌊(t - 3600 * ((⌊t / 3600⌋ : ℤ) : ℚ)) / 60⌋ : ℤ) + 1 := Int.lt_floor_add_one _
    have hs0 : 0 ≤ (t - 3600 * ((⌊t / 3600⌋ : ℤ) : ℚ)) -
        60 * ((⌊(t - 3600 * ((⌊t / 3600⌋ : ℤ) : ℚ)) / 60⌋ : ℤ) : ℚ) := by
      have := (le_div_iff₀ h60).1 hsle
      linarith
    have hslt60 : (t - 3600 * ((⌊t / 3600⌋ : ℤ) : ℚ)) -
        60 * ((⌊(t - 3600 * ((⌊t / 3600⌋ : ℤ) : ℚ)) / 60⌋ : ℤ) : ℚ) < 60 := by
      have := (div_lt_iff₀ h60).1 hslt
      linarith
    have hms0 : 0 ≤ ⌊((t - 3600 * ((⌊t / 3600⌋ : ℤ) : ℚ)) -
        60 * ((⌊(t - 3600 * ((⌊t / 3600⌋ : ℤ) : ℚ)) / 60⌋ : ℤ) : ℚ)) * 1000 + 1 / 2⌋ :=
      Int.floor_nonneg.2 (by linarith)
    have hmslt : ⌊((t - 3600 * ((⌊t / 3600⌋ : ℤ) : ℚ)) -
        60 * ((⌊(t - 3600 * ((⌊t / 3600⌋ : ℤ) : ℚ)) / 60⌋ : ℤ) : ℚ)) * 1000 + 1 / 2⌋ < 60001 := by
      rw [Int.floor_lt]
      push_cast
      linarith
    omega

/-- When the time is a whole number of seconds (as in the cloud pipeline,
which uses the integer seconds field only), the milliseconds group of
format_duration is exactly 000. -/
theorem format_duration_int_ms (n : ℕ) :
    ∃ p, format_duration (n : ℚ) = p ++ ".000" := by
  have hrem : (n : ℚ) - 3600 * ((⌊(n : ℚ) / 3600⌋ : ℤ) : ℚ) =
      (((n : ℤ) - 3600 * ⌊(n : ℚ) / 3600⌋ : ℤ) : ℚ) := by
    push_cast
    ring
  have hsecs : ∀ r m : ℤ, ((r : ℤ) : ℚ) - 60 * ((m : ℤ) : ℚ) = ((r - 60 * m : ℤ) : ℚ) := by
    intro r m
    push_cast
    ring
  have hfloor_half : ⌊(1 / 2 : ℚ)⌋ = 0 := by
    rw [Int.floor_eq_zero_iff]
    constructor <;> norm_num
  have hms : ∀ z : ℤ, ⌊((z : ℤ) : ℚ) * 1000 + 1 / 2⌋ = 1000 * z := by
    intro z
    have h1 : ((z : ℤ) : ℚ) * 1000 = (((1000 * z : ℤ)) : ℚ) := by
      push_cast
      ring
    rw [h1, Int.floor_int_add, hfloor_half, add_zero]
  simp only [format_duration, fmtSeconds]
  rw [hrem, hsecs, hms]
  have hmod : (1000 * ((n : ℤ) - 3600 * ⌊(n : ℚ) / 3600⌋ -
      60 * ⌊((((n : ℤ) - 3600 * ⌊(n : ℚ) / 3600⌋ : ℤ) : ℚ)) / 60⌋)).toNat % 1000 = 0 := by
    omega
  rw [hmod]
  exact ⟨_, append_dot000 _ _⟩

/-! ## Stripping lemmas -/

/-- Stripping is idempotent: the stripped text of an emitted line is
unchanged by another strip, so it is nonempty after stripping whenever it
is nonempty. -/
theorem stripChars_idem (l : List Char) : stripChars (stripChars l) = stripChars l := by
  unfold stripChars
  have h1 : List.dropWhile is_space (List.rdropWhile is_space (List.dropWhile is_space l)) =
      List.rdropWhile is_space (List.dropWhile is_space l) := by
    cases hR : List.rdropWhile is_space (List.dropWhile is_space l) with
    | nil => rfl
    | cons c rest =>
      have hpre := List.rdropWhile_prefix is_space (List.dropWhile is_space l)
      rw [hR] at hpre
      have hcne : (c :: rest) ≠ ([] : List Char) := by simp
      have hhead := hpre.head hcne
      have hps : is_space ((List.dropWhile is_space l).head (hpre.ne_nil hcne)) = false :=
        List.head_dropWhile_not is_space l _
      have hc : is_space c = false := by
        have hceq : c = (List.dropWhile is_space l).head (hpre.ne_nil hcne) := by
          simpa using hhead
        rw [hceq]
        exact hps
      simp [List.dropWhile_cons, hc]
  rw [h1, List.rdropWhile_idempotent]

/-- String level idempotence of the strip embedding. -/
theorem strip_idem (s : String) : strip (strip s) = strip s :=
  congrArg String.mk (stripChars_idem s.data)

/-! ## Claim C9: cloud pipeline timestamps are whole seconds -/

/-- One flush of the cloud pipeline accumulator emits nothing or one line
whose time comes from a natural number of seconds. -/
theorem gc_flush_shape (time : Option ℕ) (speaker : Option String) (text : String) :
    GC.print_transcript_line time speaker text = [] ∨
    ∃ (n : ℕ) (spk : String), GC.print_transcript_line time speaker text =
      [format_duration (n : ℚ) ++ ";" ++ spk ++ ";" ++ text] := by
  by_cases h : text = ""
  · left
    simp [GC.print_transcript_line, h]
  · right
    exact ⟨time.getD 0, speaker.getD "None", by simp [GC.print_transcript_line, h]⟩

/-- Every line collected by the word loop of print_transcript, including
the final flush, has a whole second timestamp. -/
theorem gc_fold_shape (words : List GC.Word) :
    ∀ (st : GC.LineState) (out : List String),
      (∀ l ∈ out, ∃ (n : ℕ) (spk txt : String),
          l = format_duration (n : ℚ) ++ ";" ++ spk ++ ";" ++ txt) →
      ∀ l ∈ ((words.foldl GC.step (st, out)).2 ++
          GC.print_transcript_line (words.foldl GC.step (st, out)).1.time
            (words.foldl GC.step (st, out)).1.speaker
            (words.foldl GC.step (st, out)).1.text),
        ∃ (n : ℕ) (spk txt : String),
          l = format_duration (n : ℚ) ++ ";" ++ spk ++ ";" ++ txt := by
  induction words with
  | nil =>
    intro st out hout l hl
    simp only [List.foldl_nil] at hl
    rcases List.mem_append.1 hl with h | h
    · exact hout l h
    · rcases gc_flush_shape st.time st.speaker st.text with hf | ⟨n, spk, hf⟩
      · rw [hf] at h
        simp at h
      · rw [hf] at h
        simp only [List.mem_singleton] at h
        exact ⟨n, spk, st.text, h⟩
  | cons w ws ih =>
    intro st out hout l hl
    simp only [List.foldl_cons] at hl
    by_cases hsp : some w.speaker_label ≠ st.speaker
    · have hstep : GC.step (st, out) w =
          (⟨some w.start_seconds, some w.speaker_label, "" ++ w.word ++ " "⟩,
            out ++ GC.print_transcript_line st.time st.speaker st.text) := by
        simp [GC.step, hsp]
      rw [hstep] at hl
      refine ih _ _ ?_ l hl
      intro l' hl'
      rcases List.mem_append.1 hl' with h | h
      · exact hout l' h
      · rcases gc_flush_shape st.time st.speaker st.text with hf | ⟨n, spk, hf⟩
        · rw [hf] at h
          simp at h
        · rw [hf] at h
          simp only [List.mem_singleton] at h
          exact ⟨n, spk, st.text, h⟩
    · have hstep : GC.step (st, out) w =
          (⟨st.time, st.speaker, st.text ++ w.word ++ " "⟩, out) := by
        simp [GC.step, hsp]
      rw [hstep] at hl
      exact ih _ _ hout l hl

/-- Membership in the CSV row body of transcribe_audio comes from the
output of one segment of the input list. -/
theorem mem_csv_body (ws : List FW.SpeakerWindow) (segs : List FW.Segment)
    (row : List String)
    (h : row ∈ ((segs.map (FW.process_segment ws)).map Prod.snd).flatten) :
    ∃ seg ∈ segs, row ∈ (FW.process_segment ws seg).2 := by
  rcases List.mem_flatten.1 h with ⟨l, hl, hrow⟩
  rcases List.mem_map.1 hl with ⟨pr, hpr, rfl⟩
  rcases List.mem_map.1 hpr with ⟨seg, hseg, rfl⟩
  exact ⟨seg, hseg, hrow⟩

/-- Claim C9.  Every line emitted by the cloud pipeline printer other than
the header has a timestamp derived from the integer seconds field of a
word start time, so its milliseconds group is always exactly 000. -/
theorem gc_timestamps_whole_seconds (words : List GC.Word) (line : String)
    (hline : line ∈ GC.print_transcript words) :
    line = "Time;Speaker;Text" ∨
    ∃ p spk txt : String, line = p ++ ".000;" ++ spk ++ ";" ++ txt := by
  simp only [GC.print_transcript] at hline
  rcases List.mem_cons.1 hline with h | h
  · exact Or.inl h
  · right
    obtain ⟨n, spk, txt, heq⟩ :=
      gc_fold_shape words ⟨none, none, ""⟩ [] (by simp) line h
    obtain ⟨p, hp⟩ := format_duration_int_ms n
    refine ⟨p, spk, txt, ?_⟩
    rw [heq, hp]
    have hsemi : (p ++ ".000") ++ ";" = p ++ ".000;" := by
      rw [String.append_assoc]
      rfl
    rw [hsemi]

section MainTheorems

attribute [local semireducible] Rat.mul Rat.add Rat.sub Rat.inv

open AudioTranscriber

/-- Claim C9, witness: the one body line produced from a word starting at
second 5 has milliseconds 000. -/
theorem gc_timestamps_whole_seconds_witness :
    "00:00:05.000;1;hi " = "Time;Speaker;Text" ∨
    ∃ p spk txt : String, "00:00:05.000;1;hi " = p ++ ".000;" ++ spk ++ ";" ++ txt :=
  gc_timestamps_whole_seconds [⟨"hi", "1", 5⟩] "00:00:05.000;1;hi " (by decide)

/-! ## Claim C5: console line format and speaker field -/

/-- Claim C5, counterexample.  For a window list with label "1" and one
segment starting inside the window, the emitted console line carries the
speaker field Speaker 1, which is neither the bare window label "1" nor
the Unknown sentinel, refuting the claim that the field is always one of
those. -/
theorem console_speaker_field_counterexample :
    (FW.transcribe_audio [((0 : ℚ), (1 : ℚ)/2, "1")] [⟨0, 1/2, ["hi"]⟩]).1 =
      ["Time;Speaker;Text", "00:00:00.000;Speaker 1;hi"] ∧
    "00:00:00.000;Speaker 1;hi" ≠ "00:00:00.000;1;hi" ∧
    "00:00:00.000;Speaker 1;hi" ≠ "00:00:00.000;Unknown;hi" := by
  refine ⟨?_, ?_, ?_⟩ <;> decide

/-- Claim C5, amended.  The console output of transcribe_audio is the
header Time;Speaker;Text followed by body lines of the exact shape
HH:MM:SS.mmm;speaker;text (zero padded fields, minutes below 60), where
the speaker field is Unknown or the text Speaker followed by one space and
a window label of the window list, and the text is nonempty. -/
theorem console_line_format_amended (ws : List FW.SpeakerWindow) (segs : List FW.Segment)
    (hpos : ∀ seg ∈ segs, 0 ≤ seg.start) :
    ∃ body, (FW.transcribe_audio ws segs).1 = "Time;Speaker;Text" :: body ∧
      ∀ line ∈ body, ∃ (t : ℚ) (spk txt : String),
        0 ≤ t ∧ txt ≠ "" ∧
        line = format_duration t ++ ";" ++ spk ++ ";" ++ txt ∧
        (spk = "Unknown" ∨ ∃ l ∈ ws.map (fun w => w.2.2), spk = "Speaker " ++ l) ∧
        ∃ hh mm ms : ℕ, mm < 60 ∧ ms ≤ 60000 ∧
          format_duration t =
            pad2 hh ++ ":" ++ pad2 mm ++ ":" ++ (pad2 (ms / 1000) ++ "." ++ pad3 (ms % 1000)) := by
  refine ⟨_, transcribe_audio_console ws segs, ?_⟩
  intro line hline
  obtain ⟨seg, hseg, hmem⟩ := mem_console_body ws segs line hline
  rcases process_segment_eq ws seg with h | ⟨hne, h⟩
  · rw [h] at hmem
    simp at hmem
  · rw [h] at hmem
    simp only [List.mem_singleton] at hmem
    subst hmem
    have ht := hpos seg hseg
    refine ⟨seg.start, FW.speaker_text (FW.resolve_speaker seg.start ws),
      strip (FW.join_words seg.words), ht, hne, rfl, ?_,
      format_duration_parts seg.start ht⟩
    cases hres : FW.resolve_speaker seg.start ws with
    | none =>
      left
      rfl
    | some l =>
      right
      exact ⟨l, resolve_speaker_mem _ ws l hres, rfl⟩

/-- Claim C5, witness at one window and one segment. -/
theorem console_line_format_amended_witness :
    ∃ body, (FW.transcribe_audio [((0 : ℚ), (1 : ℚ)/2, "1")] [⟨0, 1/2, ["hi"]⟩]).1 =
        "Time;Speaker;Text" :: body ∧
      ∀ line ∈ body, ∃ (t : ℚ) (spk txt : String),
        0 ≤ t ∧ txt ≠ "" ∧
        line = format_duration t ++ ";" ++ spk ++ ";" ++ txt ∧
        (spk = "Unknown" ∨ ∃ l ∈ ([((0 : ℚ), (1 : ℚ)/2, "1")] : List FW.SpeakerWindow).map
            (fun w => w.2.2), spk = "Speaker " ++ l) ∧
        ∃ hh mm ms : ℕ, mm < 60 ∧ ms ≤ 60000 ∧
          format_duration t =
            pad2 hh ++ ":" ++ pad2 mm ++ ":" ++ (pad2 (ms / 1000) ++ "." ++ pad3 (ms % 1000)) :=
  console_line_format_amended _ _ (by decide)

/-! ## Claim C8: no blank text is emitted -/

/-- Claim C8, counterexample.  In the cloud pipeline the emission guard
only requires text nonempty before stripping: a word whose token is the
empty string yields the accumulator text of one space, and the line
00:00:00.000;1; (with a single space text field) is emitted even though
that text strips to the empty string. -/
theorem whitespace_line_emitted_counterexample :
    GC.print_transcript [⟨"", "1", 0⟩] = ["Time;Speaker;Text", "00:00:00.000;1; "] ∧
    strip " " = "" := by
  constructor <;> decide

/-- Claim C8, amended.  In the faster-whisper pipeline every emitted
console line and CSV row has a text field that is nonempty and invariant
under stripping (hence nonempty after stripping): a segment whose joined
text strips to the empty string is skipped for both sinks. -/
theorem emitted_text_stripped_nonempty (ws : List FW.SpeakerWindow) (segs : List FW.Segment) :
    ∃ body rows, (FW.transcribe_audio ws segs).1 = "Time;Speaker;Text" :: body ∧
      (FW.transcribe_audio ws segs).2 = ["Time", "Speaker", "Text"] :: rows ∧
      (∀ line ∈ body, ∃ (t : ℚ) (spk txt : String),
        txt ≠ "" ∧ strip txt = txt ∧
        line = format_duration t ++ ";" ++ spk ++ ";" ++ txt) ∧
      (∀ row ∈ rows, ∃ (t : ℚ) (spk txt : String),
        txt ≠ "" ∧ strip txt = txt ∧ row = [format_duration t, spk, txt]) := by
  refine ⟨_, _, rfl, rfl, ?_, ?_⟩
  · intro line hline
    obtain ⟨seg, _, hmem⟩ := mem_console_body ws segs line hline
    rcases process_segment_eq ws seg with h | ⟨hne, h⟩
    · rw [h] at hmem
      simp at hmem
    · rw [h] at hmem
      simp only [List.mem_singleton] at hmem
      subst hmem
      exact ⟨seg.start, FW.speaker_text (FW.resolve_speaker seg.start ws),
        strip (FW.join_words seg.words), hne, strip_idem _, rfl⟩
  · intro row hrow
    obtain ⟨seg, _, hmem⟩ := mem_csv_body ws segs row hrow
    rcases process_segment_eq ws seg with h | ⟨hne, h⟩
    · rw [h] at hmem
      simp at hmem
    · rw [h] at hmem
      simp only [List.mem_singleton] at hmem
      subst hmem
      exact ⟨seg.start, FW.speaker_text (FW.resolve_speaker seg.start ws),
        strip (FW.join_words seg.words), hne, strip_idem _, rfl⟩

/-- Claim C8, witness at one window and one segment whose text needs
stripping. -/
theorem emitted_text_stripped_nonempty_witness :
    ∃ body rows,
      (FW.transcribe_audio [((0 : ℚ), (1 : ℚ)/2, "1")] [⟨0, 1/2, [" hi "]⟩]).1 =
        "Time;Speaker;Text" :: body ∧
      (FW.transcribe_audio [((0 : ℚ), (1 : ℚ)/2, "1")] [⟨0, 1/2, [" hi "]⟩]).2 =
        ["Time", "Speaker", "Text"] :: rows ∧
      (∀ line ∈ body, ∃ (t : ℚ) (spk txt : String),
        txt ≠ "" ∧ strip txt = txt ∧
        line = format_duration t ++ ";" ++ spk ++ ";" ++ txt) ∧
      (∀ row ∈ rows, ∃ (t : ℚ) (spk txt : String),
        txt ≠ "" ∧ strip txt = txt ∧ row = [format_duration t, spk, txt]) :=
  emitted_text_stripped_nonempty _ _

/-! ## Claim C2: window count for a 1.5 second waveform -/

/-- Column count for whole window multiples: with n = 8 j window samples
(so the overlap n / 8 = j is exact) and a signal of m whole windows, the
spectrogram call yields (8 m - 1) / 7 columns (natural division). -/
theorem spectrogram_cols_formula (m j : ℕ) (hj : 0 < j) :
    FW.spectrogram_cols (m * (8 * j)) (8 * j) = (8 * m - 1) / 7 := by
  unfold FW.spectrogram_cols
  have h1 : 8 * j / 8 = j := by omega
  rw [h1]
  have h2 : m * (8 * j) - j = (8 * m - 1) * j := by
    have hm : m * (8 * j) = (8 * m) * j := by ring
    rw [hm]
    calc (8 * m) * j - j = (8 * m) * j - 1 * j := by rw [one_mul]
      _ = (8 * m - 1) * j := (Nat.sub_mul (8 * m) 1 j).symm
  have h3 : 8 * j - j = 7 * j := by omega
  rw [h2, h3]
  exact Nat.mul_div_mul_right _ _ hj

/-- Claim C2, counterexample.  A 1.5 second waveform at 16 kHz has 24000
samples and 8000 sample windows, so extraction yields 3 feature windows;
but with the default six requested speakers the kmeans call fails (3
observations below 6 clusters) and perform_diarization returns the empty
window list, not the 3 claimed SpeakerWindow entries. -/
theorem diarization_scenario_counterexample :
    FW.spectrogram_cols 24000 8000 = 3 ∧
    (FW.perform_diarization
      (FW.cluster_outcome (FW.spectrogram_cols 24000 8000) 6 [0, 0, 0])).1 = [] := by
  constructor <;> decide

/-- Claim C2, amended.  A 1.5 second waveform (3 whole windows of n = 8 j
samples) yields exactly 3 feature windows, and when clustering succeeds
(which requires k at most 3) diarization returns exactly the windows
[0,0.5), [0.5,1.0), [1.0,1.5); with the default k = 6 the window list is
empty.  In general the column count is (8 m - 1) / 7 for m whole windows
because of the one eighth window overlap of the spectrogram, which is NOT
within one window of the duration for large m: at m = 15 (7.5 seconds)
there are 17 windows labeling 8.5 seconds. -/
theorem diarization_window_count_amended :
    (∀ j : ℕ, 0 < j → FW.spectrogram_cols (3 * (8 * j)) (8 * j) = 3) ∧
    (∀ (k : ℕ) (labels : List ℕ), 1 ≤ k → k ≤ 3 → labels.length = 3 →
      ((FW.perform_diarization (FW.cluster_outcome 3 k labels)).1).map
          (fun w => (w.1, w.2.1)) =
        [((0 : ℚ), (1 : ℚ)/2), ((1 : ℚ)/2, 1), ((1 : ℚ), (3 : ℚ)/2)]) ∧
    (∀ labels : List ℕ,
      (FW.perform_diarization (FW.cluster_outcome 3 6 labels)).1 = []) ∧
    (∀ m j : ℕ, 0 < j →
      FW.spectrogram_cols (m * (8 * j)) (8 * j) = (8 * m - 1) / 7) ∧
    (FW.spectrogram_cols (15 * 8) 8 = 17 ∧
      ¬((17 : ℚ) * FW.window_size ≤ 15 * FW.window_size + FW.window_size)) := by
  refine ⟨?_, ?_, ?_, spectrogram_cols_formula, ?_, ?_⟩
  · intro j hj
    simpa using spectrogram_cols_formula 3 j hj
  · intro k labels h1 h2 h3
    obtain ⟨a, b, c, rfl⟩ := List.length_eq_three.1 h3
    have hok : FW.cluster_outcome 3 k [a, b, c] = Except.ok [a, b, c] := by
      simp [FW.cluster_outcome, h1, h2]
    rw [hok]
    show (FW.mk_speaker_segments [a, b, c]).map (fun w => (w.1, w.2.1)) = _
    norm_num [FW.mk_speaker_segments, FW.mk_speaker_segments_from, FW.window_size]
  · intro labels
    have herr : FW.cluster_outcome 3 6 labels =
        Except.error "Cannot take a larger sample than population when replace is False" := by
      simp [FW.cluster_outcome]
    rw [herr]
    rfl
  · decide
  · norm_num [FW.window_size]

/-- Claim C2, witness at 16 kHz (j = 1000), k = 2, and the m = 15 case. -/
theorem diarization_window_count_amended_witness :
    FW.spectrogram_cols (3 * (8 * 1000)) (8 * 1000) = 3 ∧
    ((FW.perform_diarization (FW.cluster_outcome 3 2 [0, 1, 0])).1).map
        (fun w => (w.1, w.2.1)) =
      [((0 : ℚ), (1 : ℚ)/2), ((1 : ℚ)/2, 1), ((1 : ℚ), (3 : ℚ)/2)] ∧
    FW.spectrogram_cols (15 * (8 * 1)) (8 * 1) = (8 * 15 - 1) / 7 :=
  ⟨diarization_window_count_amended.1 1000 (by decide),
   diarization_window_count_amended.2.1 2 [0, 1, 0] (by decide) (by decide) (by decide),
   diarization_window_count_amended.2.2.2.1 15 1 (by decide)⟩

/-! ## Claim C6: windows partition the timeline -/

/-- Window building preserves the label count. -/
theorem mk_from_length (i : ℕ) (ls : List ℕ) :
    (FW.mk_speaker_segments_from i ls).length = ls.length := by
  induction ls generalizing i with
  | nil => rfl
  | cons a t ih => simp [FW.mk_speaker_segments_from, ih]

/-- Start and end of the window at each index of the built window list. -/
theorem mk_from_getElem (ls : List ℕ) (i j : ℕ)
    (h : j < (FW.mk_speaker_segments_from i ls).length) :
    (FW.mk_speaker_segments_from i ls)[j].1 = ((i + j : ℕ) : ℚ) * FW.window_size ∧
    (FW.mk_speaker_segments_from i ls)[j].2.1 = (((i + j : ℕ) : ℚ) + 1) * FW.window_size := by
  induction ls generalizing i j with
  | nil => simp [FW.mk_speaker_segments_from] at h
  | cons a t ih =>
    cases j with
    | zero => simp [FW.mk_speaker_segments_from]
    | succ j' =>
      have hlen : j' < (FW.mk_speaker_segments_from (i + 1) t).length := by
        rw [mk_from_length] at h ⊢
        simp only [List.length_cons] at h
        omega
      obtain ⟨hs, he⟩ := ih (i + 1) j' hlen
      have hidx : (FW.mk_speaker_segments_from i (a :: t))[j' + 1] =
          (FW.mk_speaker_segments_from (i + 1) t)[j'] := by
        simp [FW.mk_speaker_segments_from]
      have hcast : ((i + 1 + j' : ℕ) : ℚ) = ((i + (j' + 1) : ℕ) : ℚ) := by
        congr 1
        omega
      constructor
      · rw [hidx, hs, hcast]
      · rw [hidx, he, hcast]

/-- Claim C6, counterexample.  With a nonempty feature sequence of length
1 and the default six requested speakers, diarization returns the empty
window list rather than the single window [0, 0.5) demanded by the
claim. -/
theorem diarization_windows_counterexample :
    (FW.perform_diarization (FW.cluster_outcome 1 6 [0])).1 = [] ∧
    ((FW.perform_diarization (FW.cluster_outcome 1 6 [0])).1).length ≠ 1 := by
  constructor <;> decide

/-- Claim C6, amended.  Whenever clustering succeeds (1 <= k <= N, with N
the feature count), diarization returns one window per feature: window j
is [j * 0.5, (j + 1) * 0.5), so consecutive windows share an endpoint and
the list partitions [0, N * 0.5) in order with no gaps or overlaps; when
kmeans fails (k above N) the empty list is returned instead. -/
theorem diarization_windows_partition (k : ℕ) (labels : List ℕ)
    (h1 : 1 ≤ k) (h2 : k ≤ labels.length) :
    (FW.perform_diarization (FW.cluster_outcome labels.length k labels)).1 =
        FW.mk_speaker_segments labels ∧
    (FW.mk_speaker_segments labels).length = labels.length ∧
    (∀ j (h : j < (FW.mk_speaker_segments labels).length),
      (FW.mk_speaker_segments labels)[j].1 = (j : ℚ) * FW.window_size ∧
      (FW.mk_speaker_segments labels)[j].2.1 = ((j : ℚ) + 1) * FW.window_size) ∧
    (∀ j (h : j + 1 < (FW.mk_speaker_segments labels).length),
      (FW.mk_speaker_segments labels)[j].2.1 = (FW.mk_speaker_segments labels)[j + 1].1) := by
  refine ⟨?_, mk_from_length 0 labels, ?_, ?_⟩
  · simp [FW.cluster_outcome, h1, h2, FW.perform_diarization]
  · intro j h
    have h0 : j < (FW.mk_speaker_segments_from 0 labels).length := h
    obtain ⟨hs, he⟩ := mk_from_getElem labels 0 j h0
    have hz : ((0 + j : ℕ) : ℚ) = (j : ℚ) := by norm_num
    constructor
    · exact hs.trans (by rw [hz])
    · exact he.trans (by rw [hz])
  · intro j h
    have h1j : j + 1 < (FW.mk_speaker_segments_from 0 labels).length := h
    have h0 : j < (FW.mk_speaker_segments_from 0 labels).length := by omega
    obtain ⟨-, he⟩ := mk_from_getElem labels 0 j h0
    obtain ⟨hs, -⟩ := mk_from_getElem labels 0 (j + 1) h1j
    have key : (((0 + j : ℕ) : ℚ) + 1) * FW.window_size =
        ((0 + (j + 1) : ℕ) : ℚ) * FW.window_size := by
      push_cast
      ring
    exact he.trans (key.trans hs.symm)

/-- Claim C6, witness at k = 2 and three labels. -/
theorem diarization_windows_partition_witness :
    (FW.perform_diarization (FW.cluster_outcome ([5, 5, 7] : List ℕ).length 2 [5, 5, 7])).1 =
        FW.mk_speaker_segments [5, 5, 7] ∧
    (FW.mk_speaker_segments ([5, 5, 7] : List ℕ)).length = ([5, 5, 7] : List ℕ).length ∧
    (∀ j (h : j < (FW.mk_speaker_segments ([5, 5, 7] : List ℕ)).length),
      (FW.mk_speaker_segments ([5, 5, 7] : List ℕ))[j].1 = (j : ℚ) * FW.window_size ∧
      (FW.mk_speaker_segments ([5, 5, 7] : List ℕ))[j].2.1 =
        ((j : ℚ) + 1) * FW.window_size) ∧
    (∀ j (h : j + 1 < (FW.mk_speaker_segments ([5, 5, 7] : List ℕ)).length),
      (FW.mk_speaker_segments ([5, 5, 7] : List ℕ))[j].2.1 =
        (FW.mk_speaker_segments ([5, 5, 7] : List ℕ))[j + 1].1) :=
  diarization_windows_partition 2 [5, 5, 7] (by decide) (by decide)

end MainTheorems

end AudioTranscriber
